import Mathlib

/-!
# Verification of the STT orchestration core

Shallow embedding of the speech-to-text orchestration core of the
`stt-clinics-app` repository, together with theorems settling the frozen
claims about it.

The embedding covers:

* `SpeechRecognition` — the Orchestrator factory
  (`src/app/services/SpeechRecognitionService.ts`): backend selection,
  one-shot fallback to the Web Speech backend, duration tracking,
  `changeApi`, `getApi`.
* `AssemblyAINano` — the buffered-batch AssemblyAI Nano adapter
  (`src/app/services/AssemblyAINanoService.ts`): volume gate, audio
  buffering, finalization, the WAV encoder, `start`/`stop`.
* `Whisper` — the buffered-batch Whisper adapter (`WhisperService.ts`).
* `GoogleSpeech` — the buffered-batch Google adapter
  (`GoogleSpeechService.ts`).
* `Realtime` — the custom Web-Audio adapter (`RealtimeService.ts`).
* `AssemblyAIRT` — the realtime streaming AssemblyAI adapter
  (`AssemblyAIService.ts`).

Numbers: audio samples are embedded as `ℚ` (the float computations of the
source involve only ranges where the claims are about exact arithmetic
relationships), timestamps as `ℕ` milliseconds, byte buffers as `List ℕ`
with every entry `< 256`.

The source compares `Math.sqrt(sum / length) > noiseThreshold`.  To keep
the step functions executable, the embedding stores the radicand
(`calculateVolumeSq`) and compares it against `noiseThreshold ^ 2`; the
lemma `sqrt_gt_iff_sq_lt` shows this Boolean agrees exactly with the
source's comparison of the real square root against the (nonnegative)
threshold, and `calculateVolume` itself is defined as the real square
root, exactly as in the source.
-/

namespace STT

/-- The six backend identifiers of `SpeechRecognitionService.ts`
(`type STTApi`). -/
inductive STTApi where
  | webSpeech
  | realtime
  | assemblyAI
  | whisper
  | assemblyAINano
  | googleSpeech
deriving DecidableEq, Repr

/-- JavaScript's `String.prototype.trim` — strip leading and trailing
whitespace — embedded structurally (`List.dropWhile` on the character
list and on its reversal) so that concrete transcripts evaluate. -/
def jsTrim (s : String) : String :=
  ⟨((s.data.dropWhile Char.isWhitespace).reverse.dropWhile
      Char.isWhitespace).reverse⟩

namespace SpeechRecognition

/-- Abstract view of one backend adapter instance as the Orchestrator sees
it: its backend tag, whether it is listening, and whether it currently
holds the microphone.  Every concrete adapter acquires the microphone in
`start()` and releases it in `stop()`. -/
structure Service where
  api : STTApi
  listening : Bool
  micHeld : Bool
deriving DecidableEq, Repr

/-- Embeds `createService(api)`: a fresh adapter is constructed idle, without a
microphone; it acquires one only in its own `start()`. -/
def createService (api : STTApi) : Service :=
  { api := api, listening := false, micHeld := false }

/-- A successful adapter `start()`: capture active, microphone held. -/
def startedService (s : Service) : Service :=
  { s with listening := true, micHeld := true }

/-- An adapter `stop()`: guarded by `if (!listening) return` in every
adapter, and on the listening path it stops the media tracks and resets
all state. -/
def stopService (s : Service) : Service :=
  if s.listening then { s with listening := false, micHeld := false } else s

/-- Orchestrator state (`SpeechRecognitionService.ts` closure state):
the currently selected API, the current service instance (nullable in the
source), and the duration-tracking fields. -/
structure OrchState where
  currentApi : STTApi
  currentService : Option Service
  durationTracking : Bool
  durationMs : ℕ
deriving DecidableEq, Repr

/-- Initial Orchestrator state: the factory body ends with
`currentService = createService(currentApi)` where `currentApi` starts as
`'webSpeech'`. -/
def initOrch : OrchState :=
  { currentApi := .webSpeech
  , currentService := some (createService .webSpeech)
  , durationTracking := false
  , durationMs := 0 }

/-- Embeds `startDurationTracking()`: records the start time, resets the elapsed
time to `0` and begins the periodic interval. -/
def startDurationTracking (st : OrchState) : OrchState :=
  { st with durationTracking := true, durationMs := 0 }

/-- Embeds `stopDurationTracking()`: cancels the interval (the final
`durationMs` value depends on wall-clock time, which the claims do not
touch, so it is kept unchanged here). -/
def stopDurationTracking (st : OrchState) : OrchState :=
  { st with durationTracking := false }

/-- The Orchestrator's `start()`.  `env api` tells whether the adapter for
`api` starts successfully (`await currentService.start()` resolves) —
the adapters are external to the Orchestrator's control flow.

Returns the list of backend tags on which an adapter `start()` was
attempted, in order, and `some` final state on success or `none` when the
error is re-raised to the caller.

Mirrors lines 179–218 of `SpeechRecognitionService.ts`: create the
service if null, try to start it, start duration tracking on success; on
failure, if `currentApi !== 'webSpeech'`, switch `currentApi` and
`currentService` to the Web Speech backend and try exactly once more
(starting duration tracking if that succeeds, re-raising if not); if
`currentApi` was already `'webSpeech'`, re-raise directly. -/
def orchStart (st : OrchState) (env : STTApi → Bool) :
    List STTApi × Option OrchState :=
  let svc := match st.currentService with
    | none => createService st.currentApi
    | some s => s
  if env svc.api then
    ([svc.api],
      some (startDurationTracking
        { st with currentService := some (startedService svc) }))
  else if st.currentApi ≠ STTApi.webSpeech then
    let fb := createService STTApi.webSpeech
    let st' := { st with currentApi := STTApi.webSpeech
                       , currentService := some fb }
    if env STTApi.webSpeech then
      ([svc.api, STTApi.webSpeech],
        some (startDurationTracking
          { st' with currentService := some (startedService fb) }))
    else
      ([svc.api, STTApi.webSpeech], none)
  else
    ([svc.api], none)

/-- Embeds `getApi()`: returns `currentApi`. -/
def getApi (st : OrchState) : STTApi :=
  st.currentApi

/-- Embeds `changeApi(api)`: stops the current service if it is listening
(also stopping duration tracking), then sets `currentApi` and replaces
`currentService` with a freshly constructed adapter.  The second
component is the final state of the previously held adapter instance. -/
def changeApi (st : OrchState) (api : STTApi) : OrchState × Option Service :=
  let (st₁, old) := match st.currentService with
    | some svc =>
        if svc.listening then
          (stopDurationTracking st, some (stopService svc))
        else (st, some svc)
    | none => (st, none)
  ({ st₁ with currentApi := api
            , currentService := some (createService api) }, old)

end SpeechRecognition

namespace Wav

/-! The WAV encoder `float32ToWav` (with its helper `writeString`), which
appears verbatim in both `AssemblyAINanoService.ts` (lines 157–204) and
`WhisperService.ts` (lines 210–258).  A byte buffer is a `List ℕ` with
entries `< 256`; `DataView` writes with `littleEndian = true` are
explicit byte stores. -/

/-- One `view.setUint8(o, v)` store. -/
def setByte (b : List ℕ) (o v : ℕ) : List ℕ := b.set o v

/-- Embeds `view.setUint16(o, v, true)`: two little-endian byte stores
(JavaScript first reduces the value mod 2^16). -/
def setUint16 (b : List ℕ) (o v : ℕ) : List ℕ :=
  (b.set o (v % 256)).set (o + 1) (v / 256 % 256)

/-- Embeds `view.setUint32(o, v, true)`: four little-endian byte stores
(JavaScript first reduces the value mod 2^32). -/
def setUint32 (b : List ℕ) (o v : ℕ) : List ℕ :=
  ((((b.set o (v % 256)).set (o + 1) (v / 256 % 256)).set
    (o + 2) (v / 2 ^ 16 % 256)).set (o + 3) (v / 2 ^ 24 % 256))

/-- Embeds `view.setInt16(o, v, true)`: JavaScript converts the (possibly
negative) integer to its 16-bit two's-complement pattern `v mod 2^16` and
stores it little-endian. -/
def setInt16 (b : List ℕ) (o : ℕ) (v : ℤ) : List ℕ :=
  setUint16 b o (v % 65536).toNat

/-- The character loop of `writeString(view, offset, string)`:
`view.setUint8(offset + i, string.charCodeAt(i))`. -/
def writeChars (b : List ℕ) (o : ℕ) : List Char → List ℕ
  | [] => b
  | c :: cs => writeChars (setByte b o c.toNat) (o + 1) cs

/-- Embeds `writeString(view, offset, string)` of the source. -/
def writeString (b : List ℕ) (o : ℕ) (s : String) : List ℕ :=
  writeChars b o s.data

/-- Embeds `Math.max(-1, Math.min(1, samples[i]))`. -/
def clamp (s : ℚ) : ℚ := max (-1) (min 1 s)

/-- The 16-bit integer stored for one sample:
`sample < 0 ? sample * 0x8000 : sample * 0x7FFF` after clamping, then
JavaScript's `ToInt16` truncation toward zero (toward-zero truncation of
a rational is `⌈·⌉` below zero and `⌊·⌋` above). -/
def encodeSample (s : ℚ) : ℤ :=
  let c := clamp s
  if c < 0 then ⌈c * 32768⌉ else ⌊c * 32767⌋

/-- The sample-writing loop of `float32ToWav`:
`view.setInt16(44 + i * 2, …, true)` for `i = 0, 1, …`. -/
def writeSamples (b : List ℕ) (o : ℕ) : List ℚ → List ℕ
  | [] => b
  | s :: rest => writeSamples (setInt16 b o (encodeSample s)) (o + 2) rest

/-- Embeds `float32ToWav(samples, sampleRate)` (AssemblyAINanoService.ts
157–195 / WhisperService.ts 210–249): allocate `44 + 2·N` zero bytes,
write the 44-byte canonical header field by field, then the clamped and
scaled samples. -/
def float32ToWav (samples : List ℚ) (sampleRate : ℕ) : List ℕ :=
  let buffer := List.replicate (44 + samples.length * 2) 0
  let v := writeString buffer 0 "RIFF"
  let v := setUint32 v 4 (36 + samples.length * 2)
  let v := writeString v 8 "WAVE"
  let v := writeString v 12 "fmt "
  let v := setUint32 v 16 16
  let v := setUint16 v 20 1
  let v := setUint16 v 22 1
  let v := setUint32 v 24 sampleRate
  let v := setUint32 v 28 (sampleRate * 2)
  let v := setUint16 v 32 2
  let v := setUint16 v 34 16
  let v := writeString v 36 "data"
  let v := setUint32 v 40 (samples.length * 2)
  writeSamples v 44 samples

/-! Spec-side canonical layout (§4.2 of the spec), used to state the
refinement: little-endian encodings and the concatenated header. -/

/-- Little-endian 2-byte encoding of a 16-bit value. -/
def u16le (v : ℕ) : List ℕ := [v % 256, v / 256 % 256]

/-- Little-endian 4-byte encoding of a 32-bit value. -/
def u32le (v : ℕ) : List ℕ :=
  [v % 256, v / 256 % 256, v / 2 ^ 16 % 256, v / 2 ^ 24 % 256]

/-- ASCII bytes of a tag string. -/
def strBytes (s : String) : List ℕ := s.data.map Char.toNat

/-- The two payload bytes of one encoded sample. -/
def sampleBytes (s : ℚ) : List ℕ := u16le (encodeSample s % 65536).toNat

/-- The canonical 44-byte header for `n` mono 16-bit samples at rate
`rate`, as §4.2 of the spec lays it out. -/
def wavHeader (n rate : ℕ) : List ℕ :=
  strBytes "RIFF" ++ u32le (36 + n * 2) ++ strBytes "WAVE" ++
  strBytes "fmt " ++ u32le 16 ++ u16le 1 ++ u16le 1 ++ u32le rate ++
  u32le (rate * 2) ++ u16le 2 ++ u16le 16 ++ strBytes "data" ++
  u32le (n * 2)

/-- Reading bytes back: byte at offset `o` (`0` past the end). -/
def readByte (b : List ℕ) (o : ℕ) : ℕ := b.getD o 0

/-- Little-endian 16-bit read. -/
def readU16 (b : List ℕ) (o : ℕ) : ℕ :=
  readByte b o + 256 * readByte b (o + 1)

/-- Little-endian 32-bit read. -/
def readU32 (b : List ℕ) (o : ℕ) : ℕ :=
  readByte b o + 256 * readByte b (o + 1) +
  2 ^ 16 * readByte b (o + 2) + 2 ^ 24 * readByte b (o + 3)

/-- Little-endian signed 16-bit read (two's complement). -/
def readI16 (b : List ℕ) (o : ℕ) : ℤ :=
  let u := readU16 b o
  if 32768 ≤ u then (u : ℤ) - 65536 else (u : ℤ)

end Wav

namespace AssemblyAINano

/-! The buffered-batch AssemblyAI Nano adapter
(`src/app/services/AssemblyAINanoService.ts`). -/

/-- The `SpeechState` interface of the source (lines 22–27). -/
structure SpeechState where
  isSpeaking : Bool
  lastSpeechTime : ℕ
  currentSentence : String
  silenceStart : Option ℕ
deriving DecidableEq, Repr

/-- The closure state of one adapter instance: the audio-graph handles
(modelled as held/not-held flags), the listening flag, the frame buffer
and the speech-detection state. -/
structure ServiceState where
  audioContext : Bool
  mediaStream : Bool
  processor : Bool
  input : Bool
  isCurrentlyListening : Bool
  audioChunks : List (List ℚ)
  speechState : SpeechState
deriving DecidableEq, Repr

/-- State right after `createAssemblyAINanoService`. -/
def initState : ServiceState :=
  { audioContext := false, mediaStream := false, processor := false
  , input := false, isCurrentlyListening := false, audioChunks := []
  , speechState := { isSpeaking := false, lastSpeechTime := 0
                   , currentSentence := "", silenceStart := none } }

/-- Embeds `const noiseThreshold = 0.01`. -/
def noiseThreshold : ℚ := 1 / 100

/-- Embeds `const silenceThreshold = 1500`. -/
def silenceThreshold : ℕ := 1500

/-- The loop of `calculateVolume`: `sum += buffer[i] * buffer[i]`. -/
def sumSquares (buffer : List ℚ) : ℚ :=
  buffer.foldl (fun acc x => acc + x * x) 0

/-- The radicand `sum / buffer.length` of `calculateVolume` (for an empty
buffer JavaScript yields `NaN`, which compares false against the
threshold, exactly as `0` does here). -/
def calculateVolumeSq (buffer : List ℚ) : ℚ :=
  sumSquares buffer / buffer.length

/-- Embeds `calculateVolume(buffer)`: `Math.sqrt(sum / buffer.length)` (lines
89–95). -/
noncomputable def calculateVolume (buffer : List ℚ) : ℝ :=
  Real.sqrt (calculateVolumeSq buffer)

/-- The source's comparison `volume > noiseThreshold` in executable form:
for a nonnegative threshold, `√m > τ ↔ m > τ²` (proved below as
`isLoud_iff_calculateVolume`). -/
def isLoud (buffer : List ℚ) : Bool :=
  decide (noiseThreshold ^ 2 < calculateVolumeSq buffer)

/-- The synchronous prefix of `finalizeSentence` (lines 100–121): early
return on an empty buffer, reset of the speaking state, concatenation of
the chunks, clearing of the buffer, WAV encoding.  The second component
is the request body handed to `fetch`, `none` when no request is made. -/
def finalizeSentenceSync (sampleRate : ℕ) (s : ServiceState) :
    ServiceState × Option (List ℕ) :=
  if s.audioChunks.length = 0 then (s, none)
  else
    let s₁ := { s with speechState :=
      { s.speechState with isSpeaking := false, silenceStart := none } }
    let audioBuffer := s₁.audioChunks.flatten
    let s₂ := { s₁ with audioChunks := [] }
    (s₂, some (Wav.float32ToWav audioBuffer sampleRate))

/-- Outcome of the transcription round-trip as seen by the continuation
of `finalizeSentence`: a thrown error / non-2xx response, or a parsed
JSON body whose optional `text` field is carried. -/
inductive TranscribeResult where
  | failure
  | success (text : Option String)
deriving DecidableEq, Repr

/-- The continuation of `finalizeSentence` after `await fetch` (lines
139–151): on a 2xx response with a non-empty `data.text`, append
`data.text + ' '` to `currentSentence` and invoke
`onTranscriptUpdate(currentSentence.trim())` (second component); on a
non-2xx response or thrown error, only log.  It runs against whatever
the adapter state is when the response arrives. -/
def handleTranscribeResponse (s : ServiceState) :
    TranscribeResult → ServiceState × Option String
  | .failure => (s, none)
  | .success none => (s, none)
  | .success (some t) =>
      if t = "" then (s, none)
      else
        let sentence := s.speechState.currentSentence ++ t ++ " "
        ({ s with speechState :=
            { s.speechState with currentSentence := sentence } },
          some (jsTrim sentence))

/-- Embeds `processAudioData(inputData)` (lines 62–84): push the chunk, then the
volume-gate state machine; the timestamp `now` is `Date.now()`.  The
second component is the transcription request dispatched by an inline
finalization, if any. -/
def processAudioData (sampleRate : ℕ) (s : ServiceState)
    (inputData : List ℚ) (now : ℕ) : ServiceState × Option (List ℕ) :=
  let s := { s with audioChunks := s.audioChunks ++ [inputData] }
  if isLoud inputData then
    ({ s with speechState := { s.speechState with
        isSpeaking := true, lastSpeechTime := now, silenceStart := none } },
      none)
  else if s.speechState.isSpeaking then
    match s.speechState.silenceStart with
    | none =>
        ({ s with speechState :=
            { s.speechState with silenceStart := some now } }, none)
    | some t₀ =>
        if silenceThreshold < now - t₀ then finalizeSentenceSync sampleRate s
        else (s, none)
  else (s, none)

/-- Embeds `stop()` (lines 251–283): no-op when not listening; otherwise
disconnect the audio graph, stop the media tracks, close the context,
reset all state — including `audioChunks = []` — and only then, if
`speechState.isSpeaking`, call `finalizeSentence()`.  The second
component is the transcription request dispatched by that call, if
any. -/
def stop (sampleRate : ℕ) (s : ServiceState) : ServiceState × Option (List ℕ) :=
  if !s.isCurrentlyListening then (s, none)
  else
    let s₁ := { s with audioContext := false, mediaStream := false
                     , processor := false, input := false
                     , isCurrentlyListening := false, audioChunks := [] }
    if s₁.speechState.isSpeaking then finalizeSentenceSync sampleRate s₁
    else (s₁, none)

/-- Embeds `isListening()`. -/
def isListening (s : ServiceState) : Bool := s.isCurrentlyListening

/-- Driver iterating the `onaudioprocess` callback over a sequence of
frames paired with their `Date.now()` timestamps, collecting the
transcription requests dispatched along the way. -/
def processFrames (sampleRate : ℕ) (s : ServiceState) :
    List (List ℚ × ℕ) → ServiceState × List (List ℕ)
  | [] => (s, [])
  | (f, t) :: rest =>
      let p := processAudioData sampleRate s f t
      let q := processFrames sampleRate p.1 rest
      (q.1, p.2.toList ++ q.2)

end AssemblyAINano

namespace Whisper

/-! The buffered-batch Whisper adapter (`WhisperService.ts`). -/

/-- The `SpeechState` interface of the source (lines 25–30). -/
structure SpeechState where
  isSpeaking : Bool
  lastSpeechTime : ℕ
  currentSentence : String
  silenceStart : Option ℕ
deriving DecidableEq, Repr

/-- Closure state of one Whisper adapter instance (the
`finalizationTimer` handle is modelled as an armed/disarmed flag). -/
structure ServiceState where
  audioContext : Bool
  mediaStream : Bool
  processor : Bool
  input : Bool
  isCurrentlyListening : Bool
  audioChunks : List (List ℚ)
  finalizationTimer : Bool
  speechState : SpeechState
deriving DecidableEq, Repr

/-- State right after `createWhisperService`. -/
def initState : ServiceState :=
  { audioContext := false, mediaStream := false, processor := false
  , input := false, isCurrentlyListening := false, audioChunks := []
  , finalizationTimer := false
  , speechState := { isSpeaking := false, lastSpeechTime := 0
                   , currentSentence := "", silenceStart := none } }

/-- Embeds `const noiseThreshold = 0.005`. -/
def noiseThreshold : ℚ := 5 / 1000

/-- Embeds `const silenceThreshold = 1000`. -/
def silenceThreshold : ℕ := 1000

/-- Embeds `const maxRecordingTime = 3000` (the `start()` timer). -/
def maxRecordingTime : ℕ := 3000

/-- The loop of `calculateVolume` (lines 125–131), identical to the Nano
adapter's. -/
def sumSquares (buffer : List ℚ) : ℚ :=
  buffer.foldl (fun acc x => acc + x * x) 0

/-- The radicand `sum / buffer.length` of `calculateVolume`. -/
def calculateVolumeSq (buffer : List ℚ) : ℚ :=
  sumSquares buffer / buffer.length

/-- Embeds `calculateVolume(buffer)`: `Math.sqrt(sum / buffer.length)`. -/
noncomputable def calculateVolume (buffer : List ℚ) : ℝ :=
  Real.sqrt (calculateVolumeSq buffer)

/-- The comparison `volume > noiseThreshold` in executable form (see
`Whisper.isLoud_iff_calculateVolume`). -/
def isLoud (buffer : List ℚ) : Bool :=
  decide (noiseThreshold ^ 2 < calculateVolumeSq buffer)

/-- The synchronous prefix of `finalizeSentence` (lines 136–166): early
return on an empty buffer, reset of the speaking state, concatenation,
clearing of the buffer, WAV encoding; the request body is the second
component. -/
def finalizeSentenceSync (sampleRate : ℕ) (s : ServiceState) :
    ServiceState × Option (List ℕ) :=
  if s.audioChunks.length = 0 then (s, none)
  else
    let s₁ := { s with speechState :=
      { s.speechState with isSpeaking := false, silenceStart := none } }
    let audioBuffer := s₁.audioChunks.flatten
    let s₂ := { s₁ with audioChunks := [] }
    (s₂, some (Wav.float32ToWav audioBuffer sampleRate))

/-- The continuation of `finalizeSentence` after `await fetch` (lines
187–204), structurally identical to the Nano adapter's. -/
def handleTranscribeResponse (s : ServiceState) :
    AssemblyAINano.TranscribeResult → ServiceState × Option String
  | .failure => (s, none)
  | .success none => (s, none)
  | .success (some t) =>
      if t = "" then (s, none)
      else
        let sentence := s.speechState.currentSentence ++ t ++ " "
        ({ s with speechState :=
            { s.speechState with currentSentence := sentence } },
          some (jsTrim sentence))

/-- Embeds `processAudioData(inputData)` (lines 75–120): push the chunk; if more
than 50 chunks have accumulated, force finalization and return;
otherwise run the volume-gate state machine. -/
def processAudioData (sampleRate : ℕ) (s : ServiceState)
    (inputData : List ℚ) (now : ℕ) : ServiceState × Option (List ℕ) :=
  let s := { s with audioChunks := s.audioChunks ++ [inputData] }
  if 50 < s.audioChunks.length then finalizeSentenceSync sampleRate s
  else if isLoud inputData then
    ({ s with speechState := { s.speechState with
        isSpeaking := true, lastSpeechTime := now, silenceStart := none } },
      none)
  else if s.speechState.isSpeaking then
    match s.speechState.silenceStart with
    | none =>
        ({ s with speechState :=
            { s.speechState with silenceStart := some now } }, none)
    | some t₀ =>
        if silenceThreshold < now - t₀ then finalizeSentenceSync sampleRate s
        else (s, none)
  else (s, none)

/-- Embeds `stop()` (lines 320–367): no-op when not listening; otherwise clear
the timer, finalize the remaining audio *while the buffer is still
intact* (`if (audioChunks.length > 0) finalizeSentence()`), then tear
down the audio graph and reset the state. -/
def stop (sampleRate : ℕ) (s : ServiceState) : ServiceState × Option (List ℕ) :=
  if !s.isCurrentlyListening then (s, none)
  else
    let s₁ := { s with finalizationTimer := false }
    let (s₂, req) :=
      if 0 < s₁.audioChunks.length then finalizeSentenceSync sampleRate s₁
      else (s₁, none)
    ({ s₂ with processor := false, input := false, mediaStream := false
             , audioContext := false, isCurrentlyListening := false }, req)

/-- Embeds `isListening()`. -/
def isListening (s : ServiceState) : Bool := s.isCurrentlyListening

end Whisper

namespace GoogleSpeech

/-! The buffered-batch Google adapter (`GoogleSpeechService.ts`).  Its
upload path runs on `MediaRecorder` blobs (`recordedChunks`), so only
the parts the claims touch are modelled: the volume gate and
`start()`. -/

/-- The loop of `calculateVolume` (lines 91–97), identical to the Nano
adapter's. -/
def sumSquares (buffer : List ℚ) : ℚ :=
  buffer.foldl (fun acc x => acc + x * x) 0

/-- Embeds `const noiseThreshold = 0.01`. -/
def noiseThreshold : ℚ := 1 / 100

/-- Embeds `const silenceThreshold = 2000`. -/
def silenceThreshold : ℕ := 2000

/-- The radicand `sum / buffer.length` of `calculateVolume`. -/
def calculateVolumeSq (buffer : List ℚ) : ℚ :=
  sumSquares buffer / buffer.length

/-- Embeds `calculateVolume(buffer)`: `Math.sqrt(sum / buffer.length)`. -/
noncomputable def calculateVolume (buffer : List ℚ) : ℝ :=
  Real.sqrt (calculateVolumeSq buffer)

/-- The comparison `volume > noiseThreshold` in executable form. -/
def isLoud (buffer : List ℚ) : Bool :=
  decide (noiseThreshold ^ 2 < calculateVolumeSq buffer)

/-- The `SpeechState` interface of the source (lines 21–27), which for
this adapter carries the additional `isRecording` flag. -/
structure SpeechState where
  isSpeaking : Bool
  lastSpeechTime : ℕ
  currentSentence : String
  silenceStart : Option ℕ
  isRecording : Bool
deriving DecidableEq, Repr

/-- Closure state of one Google adapter instance.  The upload path runs
on `MediaRecorder` blobs (`recordedChunks`), whose contents are opaque
to the adapter logic; a blob is modelled as an opaque `ℕ` tag. -/
structure ServiceState where
  audioContext : Bool
  mediaStream : Bool
  processor : Bool
  input : Bool
  mediaRecorder : Bool
  isCurrentlyListening : Bool
  audioChunks : List (List ℚ)
  recordedChunks : List ℕ
  speechState : SpeechState
deriving DecidableEq, Repr

/-- Embeds `startRecording()` (lines 148–185): no-op without a media
stream; otherwise construct a fresh `MediaRecorder`, start it, and set
`speechState.isRecording`. -/
def startRecording (s : ServiceState) : ServiceState :=
  if !s.mediaStream then s
  else
    { s with mediaRecorder := true,
             speechState := { s.speechState with isRecording := true } }

/-- The synchronous prefix of `finalizeSentence` (lines 102–112): early
return on empty `recordedChunks`, reset of the speaking/recording state,
blob assembly, clearing of `recordedChunks`.  The second component is
the request body handed to `fetch`, `none` when no request is made. -/
def finalizeSentenceSync (s : ServiceState) : ServiceState × Option (List ℕ) :=
  if s.recordedChunks.length = 0 then (s, none)
  else
    let s₁ := { s with speechState := { s.speechState with
        isSpeaking := false, silenceStart := none, isRecording := false } }
    let blob := s₁.recordedChunks
    let s₂ := { s₁ with recordedChunks := [] }
    (s₂, some blob)

/-- The continuation of `finalizeSentence` after `await fetch` (lines
114–143): on a 2xx response with non-empty `data.text`, append
`data.text + ' '` and invoke `onTranscriptUpdate` (second component); a
non-2xx response or thrown error is only logged; in *both* cases the
trailing `if (isCurrentlyListening && mediaRecorder) startRecording()`
then restarts recording. -/
def handleTranscribeResponse (s : ServiceState)
    (r : AssemblyAINano.TranscribeResult) : ServiceState × Option String :=
  let p : ServiceState × Option String :=
    match r with
    | .failure => (s, none)
    | .success none => (s, none)
    | .success (some t) =>
        if t = "" then (s, none)
        else
          let sentence := s.speechState.currentSentence ++ t ++ " "
          ({ s with speechState :=
              { s.speechState with currentSentence := sentence } },
            some (jsTrim sentence))
  if p.1.isCurrentlyListening && p.1.mediaRecorder then (startRecording p.1, p.2)
  else p

/-- Embeds `isListening()`. -/
def isListening (s : ServiceState) : Bool := s.isCurrentlyListening

end GoogleSpeech

namespace Realtime

/-! The custom Web-Audio adapter (`RealtimeService.ts`). -/

/-- The `SpeechState` interface of the source (lines 22–27). -/
structure SpeechState where
  isSpeaking : Bool
  lastSpeechTime : ℕ
  currentSentence : String
  silenceStart : Option ℕ
deriving DecidableEq, Repr

/-- Closure state of one Realtime adapter instance. -/
structure ServiceState where
  audioContext : Bool
  mediaStream : Bool
  source : Bool
  processor : Bool
  listening : Bool
  speechState : SpeechState
  fullTranscript : String
deriving DecidableEq, Repr

/-- State right after `createRealtimeService`. -/
def initState : ServiceState :=
  { audioContext := false, mediaStream := false, source := false
  , processor := false, listening := false
  , speechState := { isSpeaking := false, lastSpeechTime := 0
                   , currentSentence := "", silenceStart := none }
  , fullTranscript := "" }

/-- Default `noiseThreshold = 0.015`. -/
def noiseThreshold : ℚ := 15 / 1000

/-- Default `silenceThreshold = 1500`. -/
def silenceThreshold : ℕ := 1500

/-- The volume computed inline by `processAudioData` (lines 64–69):
`sum += Math.abs(inputData[i])` followed by `sum / inputData.length` —
the *mean absolute amplitude*, not a root-mean-square. -/
def average (inputData : List ℚ) : ℚ :=
  (inputData.foldl (fun acc x => acc + |x|) 0) / inputData.length

/-- The comparison `average > noiseThreshold` of line 73. -/
def isLoud (inputData : List ℚ) : Bool :=
  decide (noiseThreshold < average inputData)

/-- Embeds `finalizeSentence()` (lines 96–118): when speaking, append the
placeholder sentence built from the wall-clock time (`timeString`) to
`fullTranscript`, emit it via `onTranscriptUpdate` (second component),
and reset the speech state. -/
def finalizeSentence (timeString : String) (s : ServiceState) :
    ServiceState × Option String :=
  if s.speechState.isSpeaking then
    let sentence := "[Speech detected at " ++ timeString ++ "] "
    let full := s.fullTranscript ++ sentence
    ({ s with fullTranscript := full
            , speechState := { s.speechState with
                isSpeaking := false, currentSentence := "", silenceStart := none } },
      some full)
  else (s, none)

/-- Embeds `processAudioData(inputData)` (lines 63–91): mean-absolute-amplitude
volume gate over the same speaking/silence state machine as the buffered
adapters (no frame is buffered by this adapter). -/
def processAudioData (s : ServiceState) (inputData : List ℚ)
    (now : ℕ) (timeString : String) : ServiceState × Option String :=
  if isLoud inputData then
    ({ s with speechState := { s.speechState with
        isSpeaking := true, lastSpeechTime := now, silenceStart :=
          if s.speechState.isSpeaking then s.speechState.silenceStart else none } },
      none)
  else if s.speechState.isSpeaking then
    match s.speechState.silenceStart with
    | none =>
        ({ s with speechState :=
            { s.speechState with silenceStart := some now } }, none)
    | some t₀ =>
        if silenceThreshold < now - t₀ then finalizeSentence timeString s
        else (s, none)
  else (s, none)

/-- Embeds `isListening()`. -/
def isListening (s : ServiceState) : Bool := s.listening

end Realtime

namespace AssemblyAIRT

/-! The realtime streaming AssemblyAI adapter (`AssemblyAIService.ts`).
Only `start()`'s idempotence guard is needed by the claims. -/

/-- Closure state of one instance. -/
structure ServiceState where
  transcriber : Bool
  audioContext : Bool
  mediaStream : Bool
  source : Bool
  processor : Bool
  listening : Bool
  fullTranscript : String
deriving DecidableEq, Repr

/-- Embeds `isListening()`. -/
def isListening (s : ServiceState) : Bool := s.listening

end AssemblyAIRT

/-!
## Theorems

First the WAV encoder refinement and its consequences, then the
volume-gate lemmas, then the theorems settling the claims about the
adapters and the Orchestrator.
-/

namespace Wav

theorem writeSamples_append (samples : List ℚ) :
    ∀ (l₁ l₂ : List ℕ) (o : ℕ), o = l₁.length → l₂.length = 2 * samples.length →
      writeSamples (l₁ ++ l₂) o samples =
        l₁ ++ (samples.map sampleBytes).flatten := by
  induction samples with
  | nil =>
      intro l₁ l₂ o ho h
      simp only [List.length_nil, Nat.mul_zero, List.length_eq_zero] at h
      subst h
      simp [writeSamples]
  | cons s rest ih =>
      intro l₁ l₂ o ho h
      subst ho
      rcases l₂ with _ | ⟨b0, l₂⟩
      · simp at h
      rcases l₂ with _ | ⟨b1, l₂'⟩
      · simp at h; omega
      have h' : l₂'.length = 2 * rest.length := by
        simp [List.length_cons] at h; omega
      show writeSamples _ _ (s :: rest) = _
      unfold writeSamples setInt16 setUint16
      rw [List.set_append_right _ _ (le_refl _)]
      simp only [Nat.sub_self]
      rw [List.set_append_right _ _ (by omega : l₁.length ≤ l₁.length + 1)]
      have h1 : l₁.length + 1 - l₁.length = 1 := by omega
      rw [h1]
      simp only [List.set_cons_zero, List.set_cons_succ]
      have hre : l₁ ++ (encodeSample s % 65536).toNat % 256 ::
          (encodeSample s % 65536).toNat / 256 % 256 :: l₂' =
          (l₁ ++ sampleBytes s) ++ l₂' := by
        simp [sampleBytes, u16le]
      rw [hre]
      rw [ih _ _ _ (by simp [sampleBytes, u16le]) h']
      simp [sampleBytes, u16le]

theorem writeSamples_cons (samples : List ℚ) :
    ∀ (b : ℕ) (l : List ℕ) (o : ℕ),
      writeSamples (b :: l) (o + 1) samples = b :: writeSamples l o samples := by
  induction samples with
  | nil => intro b l o; rfl
  | cons s rest ih =>
      intro b l o
      show writeSamples _ _ (s :: rest) = _
      unfold writeSamples setInt16 setUint16
      rw [List.set_cons_succ]
      rw [show o + 1 + 1 = o + 1 + 1 from rfl, List.set_cons_succ]
      rw [show o + 1 + 2 = (o + 2) + 1 from by omega, ih]

theorem writeSamples_flatten (samples : List ℚ) (l₂ : List ℕ)
    (h : l₂.length = 2 * samples.length) :
    writeSamples l₂ 0 samples = (samples.map sampleBytes).flatten := by
  have := writeSamples_append samples [] l₂ 0 rfl h
  simpa using this

/-- Refinement: the write-sequence `float32ToWav` of the source produces
exactly the canonical concatenated layout `wavHeader ++ payload` of
§4.2. -/
theorem float32ToWav_eq (samples : List ℚ) (rate : ℕ) :
    float32ToWav samples rate =
      wavHeader samples.length rate ++ (samples.map sampleBytes).flatten := by
  have hrep : List.replicate (44 + samples.length * 2) (0:ℕ) =
      List.replicate 44 0 ++ List.replicate (samples.length * 2) (0:ℕ) :=
    List.replicate_add 44 (samples.length * 2) 0
  unfold float32ToWav
  rw [hrep]
  simp only [writeString, writeChars, setByte, setUint16, setUint32]
  simp [List.set_append_left]
  simp only [writeSamples_cons]
  rw [writeSamples_flatten samples _ (by simp [Nat.mul_comm])]
  simp [wavHeader, strBytes, u32le, u16le]

theorem flatten_sampleBytes_length (samples : List ℚ) :
    (samples.map sampleBytes).flatten.length = 2 * samples.length := by
  induction samples with
  | nil => simp
  | cons s rest ih => simp [sampleBytes, u16le, ih]; omega

theorem encodeSample_bounds (s : ℚ) :
    -32768 ≤ encodeSample s ∧ encodeSample s < 32768 := by
  unfold encodeSample clamp
  have h1 : (-1 : ℚ) ≤ max (-1) (min 1 s) := le_max_left _ _
  have h2 : max (-1) (min 1 s) ≤ 1 := max_le (by norm_num) (min_le_left _ _)
  set c := max (-1) (min 1 s) with hc
  by_cases hneg : c < 0
  · simp only [hneg, if_true]
    have hlo : ((-32768 : ℤ) : ℚ) ≤ c * 32768 := by push_cast; nlinarith
    have hlo' : (-32768 : ℤ) ≤ ⌈c * 32768⌉ := by
      have h := Int.ceil_le_ceil hlo
      rwa [Int.ceil_intCast] at h
    have hhi : c * 32768 ≤ ((0 : ℤ) : ℚ) := by push_cast; nlinarith
    have hhi' : ⌈c * 32768⌉ ≤ (0 : ℤ) := by
      have h := Int.ceil_le_ceil hhi
      rwa [Int.ceil_intCast] at h
    omega
  · simp only [hneg, if_false]
    push_neg at hneg
    have hlo' : (0 : ℤ) ≤ ⌊c * 32767⌋ := by
      rw [Int.le_floor]
      push_cast
      nlinarith
    have hhi' : ⌊c * 32767⌋ ≤ (32767 : ℤ) := by
      have h := Int.floor_le_floor
        (show c * 32767 ≤ ((32767 : ℤ) : ℚ) by push_cast; nlinarith)
      rwa [Int.floor_intCast] at h
    omega

theorem payload_readU16 (samples : List ℚ) :
    ∀ (i : ℕ), i < samples.length →
      readU16 (samples.map sampleBytes).flatten (2 * i) =
        (encodeSample (samples.getD i 0) % 65536).toNat := by
  induction samples with
  | nil => intro i h; simp at h
  | cons s rest ih =>
      intro i h
      match i with
      | 0 =>
          have hu : (encodeSample s % 65536).toNat < 65536 := by
            have := Int.emod_nonneg (encodeSample s) (by norm_num : (65536:ℤ) ≠ 0)
            have h2 := Int.emod_lt_of_pos (encodeSample s) (by norm_num : (0:ℤ) < 65536)
            omega
          simp [readU16, readByte, sampleBytes, u16le]
          omega
      | i + 1 =>
          have h' : i < rest.length := by simp at h; omega
          obtain ⟨a, b, hab⟩ : ∃ a b, sampleBytes s = [a, b] := ⟨_, _, rfl⟩
          simp only [List.map_cons, List.flatten_cons, hab, List.cons_append,
            List.nil_append, List.getD_cons_succ]
          simp only [readU16, readByte]
          have e1 : 2 * (i + 1) = 2 * i + 1 + 1 := by omega
          rw [e1]
          simp only [List.getD_cons_succ]
          have := ih i h'
          simp only [readU16, readByte] at this
          simpa using this

theorem readI16_encode (b : List ℕ) (o : ℕ) (e : ℤ) (hlo : -32768 ≤ e)
    (hhi : e < 32768) (h : readU16 b o = (e % 65536).toNat) :
    readI16 b o = e := by
  simp only [readI16, h]
  split_ifs <;> omega

theorem readU16_append (l₁ l₂ : List ℕ) (k : ℕ) :
    readU16 (l₁ ++ l₂) (l₁.length + k) = readU16 l₂ k := by
  unfold readU16 readByte
  rw [List.getD_append_right _ _ _ _ (by omega), List.getD_append_right _ _ _ _ (by omega),
    show l₁.length + k - l₁.length = k from by omega,
    show l₁.length + k + 1 - l₁.length = k + 1 from by omega]

/-- C4.  For every sample sequence and sample rate (whose header fields
fit their 32-bit slots), `float32ToWav` returns a buffer of exactly
`44 + 2·N` bytes whose header contains, little-endian: `'RIFF'` at
offset 0, file length `36 + 2·N` at offset 4, `'WAVE'`, `'fmt '`,
format-chunk length 16, PCM tag 1, channel count 1, the sample rate,
byte rate `rate·2`, block align 2, bits-per-sample 16, `'data'`, data
length `2·N`; and each payload word at offset `44 + 2·i` is the sample
clamped to `[-1, 1]`, scaled by 32768 when negative and 32767 when
nonnegative (truncated toward zero).  The encoder is a pure function of
its two arguments. -/
theorem float32ToWav_canonical (samples : List ℚ) (rate : ℕ)
    (hN : 36 + samples.length * 2 < 2 ^ 32) (hR : rate * 2 < 2 ^ 32) :
    (float32ToWav samples rate).length = 44 + 2 * samples.length ∧
    (float32ToWav samples rate).take 4 = strBytes "RIFF" ∧
    readU32 (float32ToWav samples rate) 4 = 36 + 2 * samples.length ∧
    ((float32ToWav samples rate).drop 8).take 4 = strBytes "WAVE" ∧
    ((float32ToWav samples rate).drop 12).take 4 = strBytes "fmt " ∧
    readU32 (float32ToWav samples rate) 16 = 16 ∧
    readU16 (float32ToWav samples rate) 20 = 1 ∧
    readU16 (float32ToWav samples rate) 22 = 1 ∧
    readU32 (float32ToWav samples rate) 24 = rate ∧
    readU32 (float32ToWav samples rate) 28 = rate * 2 ∧
    readU16 (float32ToWav samples rate) 32 = 2 ∧
    readU16 (float32ToWav samples rate) 34 = 16 ∧
    ((float32ToWav samples rate).drop 36).take 4 = strBytes "data" ∧
    readU32 (float32ToWav samples rate) 40 = 2 * samples.length ∧
    ∀ (i : ℕ) (hi : i < samples.length),
      readI16 (float32ToWav samples rate) (44 + 2 * i) =
        (if max (-1) (min 1 samples[i]) < 0 then ⌈max (-1) (min 1 samples[i]) * 32768⌉
         else ⌊max (-1) (min 1 samples[i]) * 32767⌋) := by
  rw [float32ToWav_eq]
  refine ⟨?_, ?_, ?_, ?_, ?_, ?_, ?_, ?_, ?_, ?_, ?_, ?_, ?_, ?_, ?_⟩
  · rw [List.length_append, flatten_sampleBytes_length]
    simp [wavHeader, strBytes, u32le, u16le]
  · simp [wavHeader, strBytes, u32le, u16le]
  · simp [readU32, readByte, wavHeader, strBytes, u32le, u16le]; omega
  · simp [wavHeader, strBytes, u32le, u16le]
  · simp [wavHeader, strBytes, u32le, u16le]
  · simp [readU32, readByte, wavHeader, strBytes, u32le, u16le]
  · simp [readU16, readByte, wavHeader, strBytes, u32le, u16le]
  · simp [readU16, readByte, wavHeader, strBytes, u32le, u16le]
  · simp [readU32, readByte, wavHeader, strBytes, u32le, u16le]; omega
  · simp [readU32, readByte, wavHeader, strBytes, u32le, u16le]; omega
  · simp [readU16, readByte, wavHeader, strBytes, u32le, u16le]
  · simp [readU16, readByte, wavHeader, strBytes, u32le, u16le]
  · simp [wavHeader, strBytes, u32le, u16le]
  · simp [readU32, readByte, wavHeader, strBytes, u32le, u16le]; omega
  · intro i hi
    have hg : samples.getD i 0 = samples[i] := List.getD_eq_getElem samples 0 hi
    have hb := encodeSample_bounds samples[i]
    have he : encodeSample samples[i] =
        (if max (-1) (min 1 samples[i]) < 0 then ⌈max (-1) (min 1 samples[i]) * 32768⌉
         else ⌊max (-1) (min 1 samples[i]) * 32767⌋) := by
      simp [encodeSample, clamp]
    rw [← he]
    have hlen : (wavHeader samples.length rate).length = 44 := by
      simp [wavHeader, strBytes, u32le, u16le]
    apply readI16_encode _ _ _ hb.1 hb.2
    rw [show 44 + 2 * i = (wavHeader samples.length rate).length + 2 * i from by omega,
      readU16_append, payload_readU16 samples i hi, hg]

/-- Witness for C4 at the one-sample buffer `[1/2]` and rate 16000. -/
theorem float32ToWav_canonical_witness :
    (36 + ([(1:ℚ)/2] : List ℚ).length * 2 < 2 ^ 32) ∧
    (16000 * 2 < 2 ^ 32) ∧
    ((float32ToWav [(1:ℚ)/2] 16000).length = 44 + 2 * ([(1:ℚ)/2] : List ℚ).length ∧
     (float32ToWav [(1:ℚ)/2] 16000).take 4 = strBytes "RIFF" ∧
     readU32 (float32ToWav [(1:ℚ)/2] 16000) 4 = 36 + 2 * ([(1:ℚ)/2] : List ℚ).length ∧
     ((float32ToWav [(1:ℚ)/2] 16000).drop 8).take 4 = strBytes "WAVE" ∧
     ((float32ToWav [(1:ℚ)/2] 16000).drop 12).take 4 = strBytes "fmt " ∧
     readU32 (float32ToWav [(1:ℚ)/2] 16000) 16 = 16 ∧
     readU16 (float32ToWav [(1:ℚ)/2] 16000) 20 = 1 ∧
     readU16 (float32ToWav [(1:ℚ)/2] 16000) 22 = 1 ∧
     readU32 (float32ToWav [(1:ℚ)/2] 16000) 24 = 16000 ∧
     readU32 (float32ToWav [(1:ℚ)/2] 16000) 28 = 16000 * 2 ∧
     readU16 (float32ToWav [(1:ℚ)/2] 16000) 32 = 2 ∧
     readU16 (float32ToWav [(1:ℚ)/2] 16000) 34 = 16 ∧
     ((float32ToWav [(1:ℚ)/2] 16000).drop 36).take 4 = strBytes "data" ∧
     readU32 (float32ToWav [(1:ℚ)/2] 16000) 40 = 2 * ([(1:ℚ)/2] : List ℚ).length ∧
     ∀ (i : ℕ) (hi : i < ([(1:ℚ)/2] : List ℚ).length),
       readI16 (float32ToWav [(1:ℚ)/2] 16000) (44 + 2 * i) =
         (if max (-1) (min 1 ([(1:ℚ)/2] : List ℚ)[i]) < 0 then
            ⌈max (-1) (min 1 ([(1:ℚ)/2] : List ℚ)[i]) * 32768⌉
          else ⌊max (-1) (min 1 ([(1:ℚ)/2] : List ℚ)[i]) * 32767⌋)) :=
  ⟨by norm_num, by norm_num,
    float32ToWav_canonical [(1:ℚ)/2] 16000 (by norm_num) (by norm_num)⟩

end Wav

theorem foldl_add_map (f : ℚ → ℚ) (b : List ℚ) :
    ∀ acc : ℚ, b.foldl (fun a x => a + f x) acc = acc + (b.map f).sum := by
  induction b with
  | nil => intro acc; simp
  | cons x xs ih =>
      intro acc
      simp only [List.foldl_cons, List.map_cons, List.sum_cons, ih]
      ring

theorem sqrt_cast_gt_iff (q τ : ℚ) (hτ : 0 ≤ τ) :
    ((τ : ℝ) < Real.sqrt ((q : ℚ) : ℝ)) ↔ τ ^ 2 < q := by
  rw [Real.lt_sqrt (by exact_mod_cast hτ)]
  constructor <;> intro h <;> exact_mod_cast h

theorem foldl_sq_eq (b : List ℚ) :
    b.foldl (fun a x => a + x * x) 0 = (b.map fun x => x ^ 2).sum := by
  rw [show (fun a x : ℚ => a + x * x) = (fun a x => a + (fun y => y ^ 2) x) from by
    funext a x; ring]
  rw [foldl_add_map]
  simp

/-- C6 (amended).  The volume that the three buffered-batch adapters
(AssemblyAI Nano, Whisper, Google) compare against their noise threshold
is the root-mean-square `√(mean(sampleᵢ²))` of the frame, and their
speaking test `volume > noiseThreshold` holds exactly when that RMS
exceeds the threshold; the Realtime adapter instead compares the *mean
absolute amplitude* `mean(|sampleᵢ|)` against its threshold. -/
theorem volume_metrics :
    (∀ b : List ℚ, AssemblyAINano.calculateVolume b =
        Real.sqrt (((b.map fun x => x ^ 2).sum / (b.length : ℚ) : ℚ) : ℝ)) ∧
    (∀ b : List ℚ, Whisper.calculateVolume b =
        Real.sqrt (((b.map fun x => x ^ 2).sum / (b.length : ℚ) : ℚ) : ℝ)) ∧
    (∀ b : List ℚ, GoogleSpeech.calculateVolume b =
        Real.sqrt (((b.map fun x => x ^ 2).sum / (b.length : ℚ) : ℚ) : ℝ)) ∧
    (∀ b : List ℚ, AssemblyAINano.isLoud b = true ↔
        (AssemblyAINano.noiseThreshold : ℝ) < AssemblyAINano.calculateVolume b) ∧
    (∀ b : List ℚ, Whisper.isLoud b = true ↔
        (Whisper.noiseThreshold : ℝ) < Whisper.calculateVolume b) ∧
    (∀ b : List ℚ, GoogleSpeech.isLoud b = true ↔
        (GoogleSpeech.noiseThreshold : ℝ) < GoogleSpeech.calculateVolume b) ∧
    (∀ b : List ℚ, Realtime.average b = (b.map fun x => |x|).sum / (b.length : ℚ)) ∧
    (∀ b : List ℚ, Realtime.isLoud b = true ↔
        Realtime.noiseThreshold < Realtime.average b) := by
  refine ⟨?_, ?_, ?_, ?_, ?_, ?_, ?_, ?_⟩
  · intro b
    simp [AssemblyAINano.calculateVolume, AssemblyAINano.calculateVolumeSq,
      AssemblyAINano.sumSquares, foldl_sq_eq]
  · intro b
    simp [Whisper.calculateVolume, Whisper.calculateVolumeSq,
      Whisper.sumSquares, foldl_sq_eq]
  · intro b
    simp [GoogleSpeech.calculateVolume, GoogleSpeech.calculateVolumeSq,
      GoogleSpeech.sumSquares, foldl_sq_eq]
  · intro b
    have h0 : (0:ℚ) ≤ AssemblyAINano.noiseThreshold := by
      norm_num [AssemblyAINano.noiseThreshold]
    simp only [AssemblyAINano.isLoud, decide_eq_true_eq,
      AssemblyAINano.calculateVolume, sqrt_cast_gt_iff _ _ h0]
  · intro b
    have h0 : (0:ℚ) ≤ Whisper.noiseThreshold := by
      norm_num [Whisper.noiseThreshold]
    simp only [Whisper.isLoud, decide_eq_true_eq,
      Whisper.calculateVolume, sqrt_cast_gt_iff _ _ h0]
  · intro b
    have h0 : (0:ℚ) ≤ GoogleSpeech.noiseThreshold := by
      norm_num [GoogleSpeech.noiseThreshold]
    simp only [GoogleSpeech.isLoud, decide_eq_true_eq,
      GoogleSpeech.calculateVolume, sqrt_cast_gt_iff _ _ h0]
  · intro b
    rw [Realtime.average, foldl_add_map (fun x => |x|) b 0]
    simp
  · intro b
    simp only [Realtime.isLoud, decide_eq_true_eq]

/-- C6 (counterexample).  On the frame of 99 zeros followed by `0.3`,
the Realtime adapter's speaking test is *false* (its mean absolute
amplitude `0.003` is below its threshold `0.015`) although the frame's
RMS `0.03` is above that threshold: the compared volume is not the
RMS. -/
theorem realtime_volume_not_rms :
    Realtime.isLoud (List.replicate 99 (0:ℚ) ++ [3/10]) = false ∧
    (Realtime.noiseThreshold : ℝ) <
      Real.sqrt (((((List.replicate 99 (0:ℚ) ++ [3/10]).map fun x => x ^ 2).sum /
        ((List.replicate 99 (0:ℚ) ++ [3/10]).length : ℚ) : ℚ) : ℝ)) := by
  constructor
  · simp only [Realtime.isLoud, decide_eq_false_iff_not]
    rw [Realtime.average, foldl_add_map (fun x => |x|) _ 0]
    simp [List.map_append, List.map_replicate, List.sum_append,
      List.sum_replicate, Realtime.noiseThreshold]
    rw [abs_of_nonneg (by norm_num : (0:ℚ) ≤ 3 / 10)]
    norm_num
  · have h1 : (((List.replicate 99 (0:ℚ) ++ [3/10]).map fun x => x ^ 2).sum /
        ((List.replicate 99 (0:ℚ) ++ [3/10]).length : ℚ) : ℚ) = 9 / 10000 := by
      simp [List.map_append, List.map_replicate, List.sum_append,
        List.sum_replicate]
      norm_num
    rw [h1]
    have h2 : ((9 / 10000 : ℚ) : ℝ) = (3 / 100 : ℝ) ^ 2 := by norm_num
    rw [h2, Real.sqrt_sq (by norm_num : (0:ℝ) ≤ 3 / 100)]
    norm_num [Realtime.noiseThreshold]

namespace AssemblyAINano

/-- C2.  In the Nano adapter, `stop()` during an in-flight utterance
(one buffered nonempty frame, speaking state active) dispatches *no*
transcription request: the state reset clears `audioChunks` before
`finalizeSentence()` runs, so the latter's empty-buffer early return
silently discards the buffered audio (contradicting the source's own
`// Finalize any remaining audio` comment and §4.3's
finalize-before-teardown contract). -/
theorem stop_discards_buffered_audio :
    let s : ServiceState :=
      { audioContext := true, mediaStream := true, processor := true
      , input := true, isCurrentlyListening := true, audioChunks := [[1/2]]
      , speechState := { isSpeaking := true, lastSpeechTime := 0
                       , currentSentence := "", silenceStart := none } }
    s.audioChunks ≠ [] ∧ s.speechState.isSpeaking = true ∧
    isListening s = true ∧
    (stop 16000 s).2 = none ∧
    (stop 16000 s).1.audioChunks = [] := by
  exact ⟨by decide, by decide, by decide, by decide, by decide⟩

/-- C3 (counterexample).  A request dispatched by finalization is still
in flight when `stop()` tears the adapter down; when the response later
arrives, the continuation of `finalizeSentence` nevertheless appends the
text and invokes `onTranscriptUpdate` — `stop()` aborted nothing. -/
theorem late_response_updates_after_stop :
    let s₀ : ServiceState :=
      { audioContext := true, mediaStream := true, processor := true
      , input := true, isCurrentlyListening := true, audioChunks := [[1/2]]
      , speechState := { isSpeaking := true, lastSpeechTime := 0
                       , currentSentence := "hello ", silenceStart := some 0 } }
    (finalizeSentenceSync 16000 s₀).2 ≠ none ∧
    isListening (stop 16000 (finalizeSentenceSync 16000 s₀).1).1 = false ∧
    (handleTranscribeResponse (stop 16000 (finalizeSentenceSync 16000 s₀).1).1
        (.success (some "world"))).2 = some "hello world" := by
  refine ⟨?_, ?_, ?_⟩
  · decide
  · decide
  · decide

/-- C3 (amended).  `stop()` does not abort an in-flight transcription
request: the response continuation never inspects the listening flag, so
a successful response with non-empty text arriving after teardown
(`isListening() = false`) still appends to the sentence and invokes
`onTranscriptUpdate`. -/
theorem response_ignores_teardown (s : ServiceState) (t : String)
    (hne : t ≠ "") (hstop : isListening s = false) :
    (handleTranscribeResponse s (.success (some t))).2 =
      some (jsTrim (s.speechState.currentSentence ++ t ++ " ")) := by
  simp [handleTranscribeResponse, hne]

/-- Witness for C3's amended theorem: the concrete torn-down state of
the counterexample and the response text `"world"`. -/
theorem response_ignores_teardown_witness :
    let s : ServiceState :=
      { audioContext := false, mediaStream := false, processor := false
      , input := false, isCurrentlyListening := false, audioChunks := []
      , speechState := { isSpeaking := false, lastSpeechTime := 0
                       , currentSentence := "hello ", silenceStart := none } }
    ("world" ≠ "") ∧ isListening s = false ∧
    (handleTranscribeResponse s (.success (some "world"))).2 =
      some (jsTrim (s.speechState.currentSentence ++ "world" ++ " ")) :=
  ⟨by decide, by decide, response_ignores_teardown _ "world" (by decide) (by decide)⟩

theorem loud_step (sampleRate : ℕ) (s : ServiceState) (f : List ℚ)
    (now : ℕ) (hf : isLoud f = true) :
    processAudioData sampleRate s f now =
      ({ s with
          audioChunks := s.audioChunks ++ [f],
          speechState := { s.speechState with
            isSpeaking := true, lastSpeechTime := now, silenceStart := none } },
        none) := by
  simp [processAudioData, hf]

theorem loud_run (sampleRate : ℕ) (f : List ℚ) (hf : isLoud f = true) :
    ∀ (n : ℕ) (s : ServiceState),
      (processFrames sampleRate s (List.replicate n (f, 0))).1.audioChunks.length
        = s.audioChunks.length + n ∧
      (processFrames sampleRate s (List.replicate n (f, 0))).2 = [] := by
  intro n
  induction n with
  | zero => intro s; simp [processFrames]
  | succ n ih =>
      intro s
      rw [List.replicate_succ]
      have key : processFrames sampleRate s ((f, 0) :: List.replicate n (f, 0)) =
          ((processFrames sampleRate (processAudioData sampleRate s f 0).1
              (List.replicate n (f, 0))).1,
            (processAudioData sampleRate s f 0).2.toList ++
              (processFrames sampleRate (processAudioData sampleRate s f 0).1
                (List.replicate n (f, 0))).2) := rfl
      rw [key, loud_step sampleRate s f 0 hf]
      obtain ⟨h1, h2⟩ := ih { s with
        audioChunks := s.audioChunks ++ [f],
        speechState := { s.speechState with
          isSpeaking := true, lastSpeechTime := 0, silenceStart := none } }
      constructor
      · show (processFrames sampleRate _ _).1.audioChunks.length = _
        rw [h1]
        simp
        omega
      · show Option.toList none ++ _ = ([] : List (List ℕ))
        simpa using h2

end AssemblyAINano

theorem nano_isLoud_half : AssemblyAINano.isLoud [1/2] = true := by
  simp [AssemblyAINano.isLoud, AssemblyAINano.calculateVolumeSq,
    AssemblyAINano.sumSquares, AssemblyAINano.noiseThreshold]
  norm_num

namespace Whisper

theorem finalize_clears (sampleRate : ℕ) (s : ServiceState)
    (h : s.audioChunks.length ≠ 0) :
    (finalizeSentenceSync sampleRate s).1.audioChunks = [] ∧
    (finalizeSentenceSync sampleRate s).2 ≠ none := by
  simp [finalizeSentenceSync, h]

theorem processAudioData_cap (sampleRate : ℕ) (s : ServiceState)
    (f : List ℚ) (now : ℕ) (h : s.audioChunks.length ≤ 50) :
    (processAudioData sampleRate s f now).1.audioChunks.length ≤ 50 := by
  unfold processAudioData
  by_cases hcap : 50 < (s.audioChunks ++ [f]).length
  · simp only [hcap, if_true]
    have := finalize_clears sampleRate
      { s with audioChunks := s.audioChunks ++ [f] } (by simp)
    rw [this.1]
    simp
  · simp only [hcap, if_false]
    have hlen : (s.audioChunks ++ [f]).length ≤ 50 := by omega
    by_cases hl : isLoud f = true
    · simp [hl]
      simp only [List.length_append, List.length_cons, List.length_nil] at hcap
      omega
    · simp only [Bool.not_eq_true] at hl
      simp only [hl, Bool.false_eq_true, if_false]
      by_cases hs : s.speechState.isSpeaking = true
      · simp only [hs, if_true]
        match hss : s.speechState.silenceStart with
        | none => simpa using hlen
        | some t₀ =>
            by_cases ht : silenceThreshold < now - t₀
            · simp only [ht, if_true]
              by_cases h0 : (s.audioChunks ++ [f]).length = 0
              · simp at h0
              · have := finalize_clears sampleRate
                  { s with audioChunks := s.audioChunks ++ [f] } (by simpa using h0)
                rw [this.1]
                simp
            · simp only [ht, if_false]
              simpa using hlen
      · simp only [Bool.not_eq_true] at hs
        simp only [hs, Bool.false_eq_true, if_false]
        simpa using hlen

end Whisper

namespace GoogleSpeech

@[simp]
theorem startRecording_isCurrentlyListening (s : ServiceState) :
    (startRecording s).isCurrentlyListening = s.isCurrentlyListening := by
  unfold startRecording
  split_ifs <;> rfl

@[simp]
theorem startRecording_currentSentence (s : ServiceState) :
    (startRecording s).speechState.currentSentence =
      s.speechState.currentSentence := by
  unfold startRecording
  split_ifs <;> rfl

theorem handle_failure_state (s : ServiceState) :
    handleTranscribeResponse s .failure =
      if s.isCurrentlyListening && s.mediaRecorder then (startRecording s, none)
      else (s, none) := rfl

theorem restart_wrap_proj (p : ServiceState × Option String) :
    ((if p.1.isCurrentlyListening && p.1.mediaRecorder then
        (startRecording p.1, p.2) else p).2 = p.2) ∧
    ((if p.1.isCurrentlyListening && p.1.mediaRecorder then
        (startRecording p.1, p.2) else p).1.speechState.currentSentence =
      p.1.speechState.currentSentence) := by
  constructor
  · split <;> rfl
  · split <;> simp

theorem handle_emit (s : ServiceState) (r : AssemblyAINano.TranscribeResult) :
    (handleTranscribeResponse s r).2 =
      (match r with
       | .success (some t) =>
           if t = "" then none
           else some (jsTrim (s.speechState.currentSentence ++ t ++ " "))
       | _ => none) ∧
    (handleTranscribeResponse s r).1.speechState.currentSentence =
      (match r with
       | .success (some t) =>
           if t = "" then s.speechState.currentSentence
           else s.speechState.currentSentence ++ t ++ " "
       | _ => s.speechState.currentSentence) := by
  cases r with
  | failure => exact ⟨(restart_wrap_proj (s, none)).1, (restart_wrap_proj (s, none)).2⟩
  | success o =>
      cases o with
      | none => exact ⟨(restart_wrap_proj (s, none)).1, (restart_wrap_proj (s, none)).2⟩
      | some t =>
          by_cases ht : t = ""
          · subst ht
            exact ⟨(restart_wrap_proj (s, none)).1, (restart_wrap_proj (s, none)).2⟩
          · constructor
            · simp only [handleTranscribeResponse, ht, if_false]
              exact (restart_wrap_proj ({ s with speechState :=
                { s.speechState with currentSentence :=
                    s.speechState.currentSentence ++ t ++ " " } },
                some (jsTrim (s.speechState.currentSentence ++ t ++ " ")))).1
            · simp only [handleTranscribeResponse, ht, if_false]
              exact (restart_wrap_proj ({ s with speechState :=
                { s.speechState with currentSentence :=
                    s.speechState.currentSentence ++ t ++ " " } },
                some (jsTrim (s.speechState.currentSentence ++ t ++ " ")))).2

end GoogleSpeech

/-- C7.  For every buffered-batch adapter (AssemblyAI Nano, Whisper,
Google), a failed transcription round-trip (non-2xx response or thrown
error) is non-fatal: the catch block only logs, so the adapter is still
listening, the transcript accumulated from previously finalized
utterances is unchanged, and any later response produces the same
transcript and emission as if the failure had never happened (for
Google, whose continuation also restarts recording on success and
failure alike, stated on the emission and transcript). -/
theorem transcribe_failure_nonfatal
    (sN : AssemblyAINano.ServiceState) (sW : Whisper.ServiceState)
    (sG : GoogleSpeech.ServiceState)
    (hN : AssemblyAINano.isListening sN = true)
    (hW : Whisper.isListening sW = true)
    (hG : GoogleSpeech.isListening sG = true) :
    (AssemblyAINano.handleTranscribeResponse sN .failure = (sN, none) ∧
     AssemblyAINano.isListening
       (AssemblyAINano.handleTranscribeResponse sN .failure).1 = true ∧
     (AssemblyAINano.handleTranscribeResponse sN
         .failure).1.speechState.currentSentence =
       sN.speechState.currentSentence ∧
     ∀ r : AssemblyAINano.TranscribeResult,
       AssemblyAINano.handleTranscribeResponse
           (AssemblyAINano.handleTranscribeResponse sN .failure).1 r =
         AssemblyAINano.handleTranscribeResponse sN r) ∧
    (Whisper.handleTranscribeResponse sW .failure = (sW, none) ∧
     Whisper.isListening
       (Whisper.handleTranscribeResponse sW .failure).1 = true ∧
     (Whisper.handleTranscribeResponse sW
         .failure).1.speechState.currentSentence =
       sW.speechState.currentSentence ∧
     ∀ r : AssemblyAINano.TranscribeResult,
       Whisper.handleTranscribeResponse
           (Whisper.handleTranscribeResponse sW .failure).1 r =
         Whisper.handleTranscribeResponse sW r) ∧
    ((GoogleSpeech.handleTranscribeResponse sG .failure).2 = none ∧
     GoogleSpeech.isListening
       (GoogleSpeech.handleTranscribeResponse sG .failure).1 = true ∧
     (GoogleSpeech.handleTranscribeResponse sG
         .failure).1.speechState.currentSentence =
       sG.speechState.currentSentence ∧
     ∀ r : AssemblyAINano.TranscribeResult,
       (GoogleSpeech.handleTranscribeResponse
           (GoogleSpeech.handleTranscribeResponse sG .failure).1 r).2 =
         (GoogleSpeech.handleTranscribeResponse sG r).2 ∧
       (GoogleSpeech.handleTranscribeResponse
           (GoogleSpeech.handleTranscribeResponse sG .failure).1
           r).1.speechState.currentSentence =
         (GoogleSpeech.handleTranscribeResponse sG
             r).1.speechState.currentSentence) := by
  have hGsent : (GoogleSpeech.handleTranscribeResponse sG
      .failure).1.speechState.currentSentence =
      sG.speechState.currentSentence := by
    rw [GoogleSpeech.handle_failure_state]
    split <;> simp
  refine ⟨⟨rfl, hN, rfl, fun r => rfl⟩, ⟨rfl, hW, rfl, fun r => rfl⟩,
    ?_, ?_, hGsent, ?_⟩
  · rw [GoogleSpeech.handle_failure_state]
    split <;> rfl
  · rw [GoogleSpeech.handle_failure_state]
    unfold GoogleSpeech.isListening at hG ⊢
    split <;> simp [hG]
  · intro r
    obtain ⟨e1, s1⟩ := GoogleSpeech.handle_emit
      (GoogleSpeech.handleTranscribeResponse sG .failure).1 r
    obtain ⟨e2, s2⟩ := GoogleSpeech.handle_emit sG r
    rw [e1, e2, s1, s2, hGsent]
    exact ⟨rfl, rfl⟩

/-- Witness for C7 at concrete listening states of the three buffered
adapters. -/
theorem transcribe_failure_nonfatal_witness :
    let sN : AssemblyAINano.ServiceState :=
      { audioContext := true, mediaStream := true, processor := true
      , input := true, isCurrentlyListening := true, audioChunks := []
      , speechState := { isSpeaking := false, lastSpeechTime := 0
                       , currentSentence := "hello", silenceStart := none } }
    let sW : Whisper.ServiceState :=
      { audioContext := true, mediaStream := true, processor := true
      , input := true, isCurrentlyListening := true, audioChunks := []
      , finalizationTimer := true
      , speechState := { isSpeaking := false, lastSpeechTime := 0
                       , currentSentence := "hallo", silenceStart := none } }
    let sG : GoogleSpeech.ServiceState :=
      { audioContext := true, mediaStream := true, processor := true
      , input := true, mediaRecorder := true, isCurrentlyListening := true
      , audioChunks := [], recordedChunks := []
      , speechState := { isSpeaking := false, lastSpeechTime := 0
                       , currentSentence := "hola", silenceStart := none
                       , isRecording := true } }
    AssemblyAINano.isListening sN = true ∧
    Whisper.isListening sW = true ∧
    GoogleSpeech.isListening sG = true ∧
    ((AssemblyAINano.handleTranscribeResponse sN .failure = (sN, none) ∧
      AssemblyAINano.isListening
        (AssemblyAINano.handleTranscribeResponse sN .failure).1 = true ∧
      (AssemblyAINano.handleTranscribeResponse sN
          .failure).1.speechState.currentSentence =
        sN.speechState.currentSentence ∧
      ∀ r : AssemblyAINano.TranscribeResult,
        AssemblyAINano.handleTranscribeResponse
            (AssemblyAINano.handleTranscribeResponse sN .failure).1 r =
          AssemblyAINano.handleTranscribeResponse sN r) ∧
     (Whisper.handleTranscribeResponse sW .failure = (sW, none) ∧
      Whisper.isListening
        (Whisper.handleTranscribeResponse sW .failure).1 = true ∧
      (Whisper.handleTranscribeResponse sW
          .failure).1.speechState.currentSentence =
        sW.speechState.currentSentence ∧
      ∀ r : AssemblyAINano.TranscribeResult,
        Whisper.handleTranscribeResponse
            (Whisper.handleTranscribeResponse sW .failure).1 r =
          Whisper.handleTranscribeResponse sW r) ∧
     ((GoogleSpeech.handleTranscribeResponse sG .failure).2 = none ∧
      GoogleSpeech.isListening
        (GoogleSpeech.handleTranscribeResponse sG .failure).1 = true ∧
      (GoogleSpeech.handleTranscribeResponse sG
          .failure).1.speechState.currentSentence =
        sG.speechState.currentSentence ∧
      ∀ r : AssemblyAINano.TranscribeResult,
        (GoogleSpeech.handleTranscribeResponse
            (GoogleSpeech.handleTranscribeResponse sG .failure).1 r).2 =
          (GoogleSpeech.handleTranscribeResponse sG r).2 ∧
        (GoogleSpeech.handleTranscribeResponse
            (GoogleSpeech.handleTranscribeResponse sG .failure).1
            r).1.speechState.currentSentence =
          (GoogleSpeech.handleTranscribeResponse sG
              r).1.speechState.currentSentence)) :=
  ⟨by decide, by decide, by decide,
   transcribe_failure_nonfatal _ _ _ (by decide) (by decide) (by decide)⟩

/-- C8 (amended).  Only the Whisper adapter bounds its frame buffer:
its `processAudioData` forces finalization (clearing the buffer and
dispatching a request) as soon as more than 50 chunks have accumulated,
so a buffer of at most 50 chunks never grows past 50 across a step.
The AssemblyAI Nano adapter — the buffered adapter this claim's cited
code belongs to — has no cap at all: during uninterrupted speech (every
frame above the noise threshold) its buffer grows by one frame per
callback without bound, and no finalization is ever forced. -/
theorem buffer_cap_whisper_not_nano :
    (∀ (sampleRate : ℕ) (s : Whisper.ServiceState) (f : List ℚ) (now : ℕ),
        s.audioChunks.length ≤ 50 →
        (Whisper.processAudioData sampleRate s f now).1.audioChunks.length ≤ 50) ∧
    (∀ (sampleRate : ℕ) (s : Whisper.ServiceState) (f : List ℚ) (now : ℕ),
        50 ≤ s.audioChunks.length →
        (Whisper.processAudioData sampleRate s f now).1.audioChunks = [] ∧
        (Whisper.processAudioData sampleRate s f now).2 ≠ none) ∧
    (∀ (sampleRate : ℕ) (f : List ℚ), AssemblyAINano.isLoud f = true →
        ∀ (n : ℕ) (s : AssemblyAINano.ServiceState),
          (AssemblyAINano.processFrames sampleRate s
              (List.replicate n (f, 0))).1.audioChunks.length
            = s.audioChunks.length + n ∧
          (AssemblyAINano.processFrames sampleRate s
              (List.replicate n (f, 0))).2 = []) := by
  refine ⟨Whisper.processAudioData_cap, ?_, AssemblyAINano.loud_run⟩
  intro sampleRate s f now h
  unfold Whisper.processAudioData
  have hcap : 50 < (s.audioChunks ++ [f]).length := by simp; omega
  simp only [hcap, if_true]
  exact Whisper.finalize_clears sampleRate
    { s with audioChunks := s.audioChunks ++ [f] } (by simp)

/-- Witness for C8's amended theorem: a freshly started Whisper adapter
(empty buffer), a 51-chunk Whisper buffer, and two loud frames into a
freshly started Nano adapter. -/
theorem buffer_cap_witness :
    (({ Whisper.initState with
          isCurrentlyListening := true, audioChunks := [] } :
        Whisper.ServiceState).audioChunks.length ≤ 50) ∧
    ((Whisper.processAudioData 16000
        { Whisper.initState with
            isCurrentlyListening := true, audioChunks := [] }
        [1/2] 0).1.audioChunks.length ≤ 50) ∧
    (50 ≤ ({ Whisper.initState with
               isCurrentlyListening := true,
               audioChunks := List.replicate 51 [0] } :
        Whisper.ServiceState).audioChunks.length) ∧
    ((Whisper.processAudioData 16000
        { Whisper.initState with
            isCurrentlyListening := true,
            audioChunks := List.replicate 51 [0] }
        [1/2] 0).1.audioChunks = [] ∧
     (Whisper.processAudioData 16000
        { Whisper.initState with
            isCurrentlyListening := true,
            audioChunks := List.replicate 51 [0] }
        [1/2] 0).2 ≠ none) ∧
    (AssemblyAINano.isLoud [1/2] = true) ∧
    ((AssemblyAINano.processFrames 16000
        { AssemblyAINano.initState with isCurrentlyListening := true }
        (List.replicate 2 ([1/2], 0))).1.audioChunks.length
      = ({ AssemblyAINano.initState with isCurrentlyListening := true } :
          AssemblyAINano.ServiceState).audioChunks.length + 2 ∧
     (AssemblyAINano.processFrames 16000
        { AssemblyAINano.initState with isCurrentlyListening := true }
        (List.replicate 2 ([1/2], 0))).2 = []) :=
  ⟨by decide,
   buffer_cap_whisper_not_nano.1 16000 _ [1/2] 0 (by decide),
   by decide,
   buffer_cap_whisper_not_nano.2.1 16000 _ [1/2] 0 (by decide),
   nano_isLoud_half,
   buffer_cap_whisper_not_nano.2.2 16000 [1/2] nano_isLoud_half 2 _⟩

/-- C8 (counterexample).  One hundred consecutive loud frames into a
freshly started AssemblyAI Nano adapter — at the default 4096-sample
buffer and 16 kHz that is ≈ 25.6 s of audio, beyond any 1–3 second cap —
all accumulate: the buffer reaches 100 frames and no finalization is
ever forced while speech continues. -/
theorem nano_no_buffer_cap :
    (AssemblyAINano.processFrames 16000
        { AssemblyAINano.initState with isCurrentlyListening := true }
        (List.replicate 100 ([1/2], 0))).1.audioChunks.length = 100 ∧
    (AssemblyAINano.processFrames 16000
        { AssemblyAINano.initState with isCurrentlyListening := true }
        (List.replicate 100 ([1/2], 0))).2 = [] := by
  have h := AssemblyAINano.loud_run 16000 [1/2] nano_isLoud_half 100
    { AssemblyAINano.initState with isCurrentlyListening := true }
  exact ⟨by rw [h.1]; decide, h.2⟩

namespace SpeechRecognition

theorem orchStart_svc_api (st : OrchState)
    (hsvc : ∀ svc, st.currentService = some svc → svc.api = st.currentApi) :
    (match st.currentService with
      | none => createService st.currentApi
      | some s => s).api = st.currentApi := by
  cases hcs : st.currentService with
  | none => rfl
  | some svc => exact hsvc svc hcs

theorem orchStart_fallback_ok (st : OrchState) (env : STTApi → Bool)
    (hsvc : ∀ svc, st.currentService = some svc → svc.api = st.currentApi)
    (hne : st.currentApi ≠ STTApi.webSpeech)
    (hfail : env st.currentApi = false)
    (hok : env STTApi.webSpeech = true) :
    orchStart st env =
      ([st.currentApi, STTApi.webSpeech],
        some { st with
          currentApi := STTApi.webSpeech,
          currentService :=
            some (startedService (createService STTApi.webSpeech)),
          durationTracking := true, durationMs := 0 }) := by
  simp only [orchStart]
  rw [orchStart_svc_api st hsvc, hfail]
  simp only [Bool.false_eq_true, if_false, ne_eq, hne, not_false_eq_true,
    if_true, hok]
  rfl

theorem orchStart_fallback_fail (st : OrchState) (env : STTApi → Bool)
    (hsvc : ∀ svc, st.currentService = some svc → svc.api = st.currentApi)
    (hne : st.currentApi ≠ STTApi.webSpeech)
    (hfail : env st.currentApi = false)
    (hko : env STTApi.webSpeech = false) :
    orchStart st env = ([st.currentApi, STTApi.webSpeech], none) := by
  simp only [orchStart]
  rw [orchStart_svc_api st hsvc, hfail]
  simp only [Bool.false_eq_true, if_false, ne_eq, hne, not_false_eq_true,
    if_true, hko]

theorem orchStart_webSpeech_fail (st : OrchState) (env : STTApi → Bool)
    (hsvc : ∀ svc, st.currentService = some svc → svc.api = st.currentApi)
    (heq : st.currentApi = STTApi.webSpeech)
    (hfail : env st.currentApi = false) :
    orchStart st env = ([st.currentApi], none) := by
  simp only [orchStart]
  rw [orchStart_svc_api st hsvc, hfail]
  simp only [Bool.false_eq_true, if_false, ne_eq, heq, not_true_eq_false]

/-- C1.  When the selected backend is not webSpeech and its `start()`
rejects, the Orchestrator retries exactly once, with the webSpeech
backend (the attempt trace is `[selected, webSpeech]`): on fallback
success it has switched `currentService` to a started webSpeech adapter
and started duration tracking; it raises only if the fallback attempt
also fails.  When the selected backend is already webSpeech, the
failure is raised directly with no retry (trace `[webSpeech]`). -/
theorem start_fallback_once (st : OrchState) (env : STTApi → Bool)
    (hsvc : ∀ svc, st.currentService = some svc → svc.api = st.currentApi)
    (hfail : env st.currentApi = false) :
    (st.currentApi ≠ STTApi.webSpeech →
      (orchStart st env).1 = [st.currentApi, STTApi.webSpeech] ∧
      (env STTApi.webSpeech = true →
        (orchStart st env).2 =
          some { st with
            currentApi := STTApi.webSpeech,
            currentService :=
              some (startedService (createService STTApi.webSpeech)),
            durationTracking := true, durationMs := 0 }) ∧
      (env STTApi.webSpeech = false → (orchStart st env).2 = none)) ∧
    (st.currentApi = STTApi.webSpeech →
      (orchStart st env).1 = [st.currentApi] ∧
      (orchStart st env).2 = none) := by
  constructor
  · intro hne
    refine ⟨?_, ?_, ?_⟩
    · cases hok : env STTApi.webSpeech
      · rw [orchStart_fallback_fail st env hsvc hne hfail hok]
      · rw [orchStart_fallback_ok st env hsvc hne hfail hok]
    · intro hok
      rw [orchStart_fallback_ok st env hsvc hne hfail hok]
    · intro hko
      rw [orchStart_fallback_fail st env hsvc hne hfail hko]
  · intro heq
    rw [orchStart_webSpeech_fail st env hsvc heq hfail]
    exact ⟨rfl, rfl⟩

/-- Witness for C1: the whisper backend selected, its start rejecting,
webSpeech succeeding. -/
theorem start_fallback_once_witness :
    let st₀ : OrchState :=
      { currentApi := STTApi.whisper
      , currentService := some (createService STTApi.whisper)
      , durationTracking := false, durationMs := 0 }
    let env₀ : STTApi → Bool := fun a =>
      match a with
      | STTApi.webSpeech => true
      | _ => false
    (∀ svc, st₀.currentService = some svc → svc.api = st₀.currentApi) ∧
    env₀ st₀.currentApi = false ∧
    ((st₀.currentApi ≠ STTApi.webSpeech →
      (orchStart st₀ env₀).1 = [st₀.currentApi, STTApi.webSpeech] ∧
      (env₀ STTApi.webSpeech = true →
        (orchStart st₀ env₀).2 =
          some { st₀ with
            currentApi := STTApi.webSpeech,
            currentService :=
              some (startedService (createService STTApi.webSpeech)),
            durationTracking := true, durationMs := 0 }) ∧
      (env₀ STTApi.webSpeech = false → (orchStart st₀ env₀).2 = none)) ∧
     (st₀.currentApi = STTApi.webSpeech →
      (orchStart st₀ env₀).1 = [st₀.currentApi] ∧
      (orchStart st₀ env₀).2 = none)) :=
  ⟨fun svc h => by injection h with h'; rw [← h']; rfl, rfl,
   start_fallback_once _ _ (fun svc h => by injection h with h'; rw [← h']; rfl)
     rfl⟩

/-- C5 (amended).  When the selected non-webSpeech backend's `start()`
rejects and the webSpeech fallback starts successfully, the
Orchestrator's `start()` resolves without raising — but `getApi()` then
reports the fallback backend `webSpeech`, not the originally requested
selection: `currentApi` is reassigned before the retry and nothing
records the original choice. -/
theorem fallback_resolves_reporting_webSpeech (st : OrchState)
    (env : STTApi → Bool)
    (hsvc : ∀ svc, st.currentService = some svc → svc.api = st.currentApi)
    (hne : st.currentApi ≠ STTApi.webSpeech)
    (hfail : env st.currentApi = false)
    (hok : env STTApi.webSpeech = true) :
    ∃ st', (orchStart st env).2 = some st' ∧ getApi st' = STTApi.webSpeech := by
  rw [orchStart_fallback_ok st env hsvc hne hfail hok]
  exact ⟨_, rfl, rfl⟩

/-- Witness for C5's amended theorem. -/
theorem fallback_resolves_reporting_webSpeech_witness :
    let st₀ : OrchState :=
      { currentApi := STTApi.whisper
      , currentService := some (createService STTApi.whisper)
      , durationTracking := false, durationMs := 0 }
    let env₀ : STTApi → Bool := fun a =>
      match a with
      | STTApi.webSpeech => true
      | _ => false
    (∀ svc, st₀.currentService = some svc → svc.api = st₀.currentApi) ∧
    st₀.currentApi ≠ STTApi.webSpeech ∧
    env₀ st₀.currentApi = false ∧
    env₀ STTApi.webSpeech = true ∧
    ∃ st', (orchStart st₀ env₀).2 = some st' ∧ getApi st' = STTApi.webSpeech :=
  ⟨fun svc h => by injection h with h'; rw [← h']; rfl, by decide, rfl, rfl,
   fallback_resolves_reporting_webSpeech _ _
     (fun svc h => by injection h with h'; rw [← h']; rfl) (by decide) rfl rfl⟩

/-- C5 (counterexample).  With whisper selected, whisper's start
rejecting and webSpeech succeeding, `start()` resolves but `getApi()`
afterwards reports `webSpeech`, which differs from the originally
requested `whisper` — the claim that `getApi()` still reports the
original selection is false. -/
theorem getApi_after_fallback_not_original :
    let st₀ : OrchState :=
      { currentApi := STTApi.whisper
      , currentService := some (createService STTApi.whisper)
      , durationTracking := false, durationMs := 0 }
    let env₀ : STTApi → Bool := fun a =>
      match a with
      | STTApi.webSpeech => true
      | _ => false
    st₀.currentApi = STTApi.whisper ∧
    ((orchStart st₀ env₀).2.map getApi) = some STTApi.webSpeech ∧
    STTApi.webSpeech ≠ STTApi.whisper := by
  exact ⟨rfl, by decide, by decide⟩

/-- C9.  After `changeApi(b)`: the previously held adapter instance is
not listening and holds no microphone (under the adapter invariant that
a microphone is held only while listening); the `currentApi` is `b` and
`currentService` is the freshly constructed adapter for `b`, which is
not listening and has not acquired a microphone — it will do so only in
a subsequent `start()`.  Hence at no point after the switch do two
adapters hold the microphone. -/
theorem changeApi_exclusive (st : OrchState) (b : STTApi)
    (hinv : ∀ svc, st.currentService = some svc →
      svc.micHeld = true → svc.listening = true) :
    (∀ svc, (changeApi st b).2 = some svc →
        svc.listening = false ∧ svc.micHeld = false) ∧
    (changeApi st b).1.currentApi = b ∧
    (changeApi st b).1.currentService = some (createService b) ∧
    (createService b).listening = false ∧
    (createService b).micHeld = false := by
  refine ⟨?_, ?_, ?_, rfl, rfl⟩
  · intro svc h
    unfold changeApi at h
    cases hcs : st.currentService with
    | none => rw [hcs] at h; simp at h
    | some old =>
        rw [hcs] at h
        by_cases hl : old.listening = true
        · simp only [hl, if_true] at h
          injection h with h'
          rw [← h']
          unfold stopService
          simp [hl]
        · simp only [Bool.not_eq_true] at hl
          simp only [hl, Bool.false_eq_true, if_false] at h
          injection h with h'
          rw [← h']
          refine ⟨hl, ?_⟩
          cases hm : old.micHeld with
          | false => rfl
          | true => rw [hinv old hcs hm] at hl; cases hl
  · unfold changeApi
    cases st.currentService with
    | none => rfl
    | some old =>
        by_cases hl : old.listening = true
        · simp [hl]
        · simp only [Bool.not_eq_true] at hl
          simp [hl]
  · unfold changeApi
    cases st.currentService with
    | none => rfl
    | some old =>
        by_cases hl : old.listening = true
        · simp [hl]
        · simp only [Bool.not_eq_true] at hl
          simp [hl]

/-- Witness for C9: switching away from a listening whisper adapter to
googleSpeech. -/
theorem changeApi_exclusive_witness :
    let st₀ : OrchState :=
      { currentApi := STTApi.whisper
      , currentService :=
          some { api := STTApi.whisper, listening := true, micHeld := true }
      , durationTracking := true, durationMs := 250 }
    (∀ svc, st₀.currentService = some svc →
      svc.micHeld = true → svc.listening = true) ∧
    ((∀ svc, (changeApi st₀ STTApi.googleSpeech).2 = some svc →
        svc.listening = false ∧ svc.micHeld = false) ∧
     (changeApi st₀ STTApi.googleSpeech).1.currentApi = STTApi.googleSpeech ∧
     (changeApi st₀ STTApi.googleSpeech).1.currentService =
       some (createService STTApi.googleSpeech) ∧
     (createService STTApi.googleSpeech).listening = false ∧
     (createService STTApi.googleSpeech).micHeld = false) :=
  ⟨fun svc h _ => by injection h with h'; rw [← h'],
   changeApi_exclusive _ _
     (fun svc h _ => by injection h with h'; rw [← h'])⟩

end SpeechRecognition

end STT
